import Mathlib

set_option maxHeartbeats 1000000

/-!
Formal model of the core data structures and algorithms of the phosphor CRT
simulator: decay-term classification and accumulation-buffer layout,
spectral emission weights, arc-length resampling, the SPSC sample channel,
the oscilloscope and external beam sources, the GPU pass sequence and the
phosphor database loader.  `f32` scalars are modelled as exact rationals
where the code only moves and compares them, and as real numbers where the
code applies transcendental functions.
-/

/-! ### Spectral bands and emission weights (src/crates/phosphor-data/src/spectral.rs) -/

/-! Decimal parsing shared by the CSV reader (Rust `str::parse::<f32>`) and the
external protocol (nom `float`); f32 literals are modelled as exact rationals. -/

/-! ### Beam samples and arc-length resampling (src/src/beam/mod.rs, resample.rs) -/

/-! ### SPSC sample channel (src/src/beam/mod.rs)

`SampleProducer::push_bulk` and `SampleConsumer::drain_up_to` wrap an `rtrb`
ring buffer.  Modelled from the spec: the external `rtrb` SPSC ring is a
bounded FIFO queue — `Producer::slots()` is the free capacity,
`Consumer::slots()` the number of queued elements, `write_chunk n` appends
`n ≤ slots` elements and `read_chunk n` removes the `n` oldest.  The
push/drain arithmetic is taken from the source wrappers. -/

/-! ### Oscilloscope source (src/src/beam/oscilloscope.rs) -/

/-! ### External protocol source (src/src/beam/external.rs) -/

/-! Evaluation lemmas for the float parser on plain decimal inputs. -/

/-! ### GPU frame pass sequence (src/src/gpu/mod.rs) -/

/-! ### Phosphor database loader (src/crates/phosphor-data/src/lib.rs) -/

/-- One summand of a phosphor's decay law
(`DecayTerm`, src/crates/phosphor-data/src/lib.rs). -/
inductive DecayTerm
  | exponential (amplitude tau : ℚ)
  | powerLaw (amplitude alpha beta : ℚ)
  deriving DecidableEq, Repr

/-- Result of classifying a phosphor's decay terms into tiers
(`DecayClassification`, src/crates/phosphor-data/src/lib.rs). -/
structure DecayClassification where
  instant_exp_count : ℕ
  slow_exp_count : ℕ
  has_power_law : Bool
  deriving DecidableEq, Repr

/-- `DecayClassification::accum_layers`: one scalar layer per slow exponential
term, two more if a power-law term is present. -/
def DecayClassification.accum_layers (c : DecayClassification) : ℕ :=
  c.slow_exp_count + (if c.has_power_law then 2 else 0)

/-- One iteration of the `for term in terms` loop of `classify_decay_terms`. -/
def classifyStep (tau_cutoff : ℚ) (c : DecayClassification) : DecayTerm → DecayClassification
  | .exponential _ tau =>
      if tau < tau_cutoff then { c with instant_exp_count := c.instant_exp_count + 1 }
      else { c with slow_exp_count := c.slow_exp_count + 1 }
  | .powerLaw _ _ _ => { c with has_power_law := true }

/-- `classify_decay_terms` (src/crates/phosphor-data/src/lib.rs): partition the
terms into instant exponentials, slow exponentials, and power laws. -/
def classify_decay_terms (terms : List DecayTerm) (tau_cutoff : ℚ) : DecayClassification :=
  terms.foldl (classifyStep tau_cutoff) ⟨0, 0, false⟩

/-- `SPECTRAL_BANDS` (src/crates/phosphor-data/src/spectral.rs). -/
def SPECTRAL_BANDS : ℕ := 16

/-- `TAU_CUTOFF` (src/src/gpu/mod.rs): 1e-4 seconds. -/
def TAU_CUTOFF : ℚ := 1 / 10 ^ 4

/-- `accum_layer_count` (src/src/gpu/accumulation.rs).  Tier 2 gets
`SPECTRAL_BANDS` layers per slow exponential term, tier 3 gets
`SPECTRAL_BANDS + 1` layers, tier 1 gets `SPECTRAL_BANDS` layers.  The
`as u32` conversion of the `usize` total reduces it modulo `2 ^ 32`. -/
def accum_layer_count (slow_exp_count : ℕ) (has_power_law has_instant : Bool) : ℕ :=
  let l0 := slow_exp_count * SPECTRAL_BANDS
  let l1 := if has_power_law then l0 + (SPECTRAL_BANDS + 1) else l0
  let l2 := if has_instant then l1 + SPECTRAL_BANDS else l1
  l2 % 2 ^ 32

/-- An exponential term whose `tau` falls below the cutoff (tier 1). -/
def isInstantExp (tau_cutoff : ℚ) : DecayTerm → Bool
  | .exponential _ tau => decide (tau < tau_cutoff)
  | .powerLaw _ _ _ => false

/-- An exponential term whose `tau` is at or above the cutoff (tier 2). -/
def isSlowExp (tau_cutoff : ℚ) : DecayTerm → Bool
  | .exponential _ tau => decide (tau_cutoff ≤ tau)
  | .powerLaw _ _ _ => false

/-- A power-law term (tier 3). -/
def isPowerLaw : DecayTerm → Bool
  | .exponential _ _ => false
  | .powerLaw _ _ _ => true

/-- `WAVELENGTH_MIN`. -/
def WAVELENGTH_MIN : ℚ := 380

/-- `WAVELENGTH_MAX`. -/
def WAVELENGTH_MAX : ℚ := 780

/-- `BAND_WIDTH`. -/
def BAND_WIDTH : ℚ := (WAVELENGTH_MAX - WAVELENGTH_MIN) / (SPECTRAL_BANDS : ℚ)

/-- `band_range`. -/
def band_range (band : ℕ) : ℚ × ℚ :=
  let lo := WAVELENGTH_MIN + (band : ℚ) * BAND_WIDTH
  (lo, lo + BAND_WIDTH)

/-- `band_center`. -/
def band_center (band : ℕ) : ℚ :=
  WAVELENGTH_MIN + ((band : ℚ) + 1 / 2) * BAND_WIDTH

/-- `gaussian_emission_weights`: a Gaussian sampled at band centers with
`sigma = fwhm / 2.355`, L1-normalized when the raw sum is positive. -/
noncomputable def gaussian_emission_weights (peak_nm fwhm_nm : ℝ) : List ℝ :=
  let sigma := fwhm_nm / 2.355
  let weights := (List.range SPECTRAL_BANDS).map fun i =>
    let d := (((band_center i : ℚ) : ℝ) - peak_nm) / sigma
    Real.exp (-0.5 * d * d)
  let sum := weights.sum
  if 0 < sum then weights.map (· / sum) else weights

/-- Value of a list of decimal digit characters. -/
def digitsVal (ds : List Char) : ℕ :=
  ds.foldl (fun n c => n * 10 + (c.toNat - 48)) 0

/-- Parse an optional leading sign, returning the sign factor and the rest. -/
def parseSign (cs : List Char) : ℚ × List Char :=
  if cs.headD ' ' = '+' then (1, cs.tail)
  else if cs.headD ' ' = '-' then (-1, cs.tail)
  else (1, cs)

/-- Parse a decimal mantissa `digits[.digits]` or `.digits`. -/
def parseMantissa (cs : List Char) : Option (ℚ × List Char) :=
  let intPart := cs.takeWhile (·.isDigit)
  let rest₁ := cs.dropWhile (·.isDigit)
  if rest₁.headD ' ' = '.' then
    let r := rest₁.tail
    let fracPart := r.takeWhile (·.isDigit)
    let rest₂ := r.dropWhile (·.isDigit)
    if intPart.isEmpty && fracPart.isEmpty then none
    else some ((digitsVal intPart : ℚ) + (digitsVal fracPart : ℚ) / 10 ^ fracPart.length, rest₂)
  else
    if intPart.isEmpty then none
    else some ((digitsVal intPart : ℚ), rest₁)

/-- Parse an optional exponent suffix `e|E [+|-] digits`. -/
def parseExponent (cs : List Char) : Option (ℤ × List Char) :=
  if cs.headD ' ' = 'e' ∨ cs.headD ' ' = 'E' then
    let r := cs.tail
    let sr : ℤ × List Char :=
      if r.headD ' ' = '+' then (1, r.tail)
      else if r.headD ' ' = '-' then (-1, r.tail)
      else (1, r)
    let ds := sr.2.takeWhile (·.isDigit)
    if ds.isEmpty then none
    else some (sr.1 * (digitsVal ds : ℤ), sr.2.dropWhile (·.isDigit))
  else none

/-- Decimal float syntax: sign, mantissa, optional exponent; returns the value
and the unconsumed input (the shape of nom's `float` recognizer). -/
def parseFloatPrefix (cs : List Char) : Option (ℚ × List Char) :=
  let sc := parseSign cs
  match parseMantissa sc.2 with
  | none => none
  | some (m, cs₂) =>
    match parseExponent cs₂ with
    | some (e, cs₃) => some (sc.1 * m * (10 : ℚ) ^ e, cs₃)
    | none => some (sc.1 * m, cs₂)

/-- Rust `str::parse::<f32>()` on a field: the whole field must be consumed. -/
def parseRatWhole (cs : List Char) : Option ℚ :=
  match parseFloatPrefix cs with
  | some (v, []) => some v
  | _ => none

/-- ASCII whitespace, the characters Rust's `str::trim` strips in this data. -/
def isWhitespaceChar (c : Char) : Bool :=
  c = ' ' ∨ c = '\t' ∨ c = '\n' ∨ c = '\r'

/-- Rust `str::trim` on a character list. -/
def trimChars (cs : List Char) : List Char :=
  ((cs.dropWhile isWhitespaceChar).reverse.dropWhile isWhitespaceChar).reverse

/-- Split a character list on a separator character. -/
def splitOnChar (sep : Char) : List Char → List (List Char)
  | [] => [[]]
  | c :: rest =>
    let r := splitOnChar sep rest
    if c = sep then [] :: r
    else
      match r with
      | [] => [[c]]
      | h :: t => (c :: h) :: t

/-- Rust `str::lines`: split on newline, dropping the piece after a trailing
newline and a trailing carriage return on each line. -/
def rustLines (cs : List Char) : List (List Char) :=
  let parts := splitOnChar '\n' cs
  let parts := if parts.getLast? = some [] then parts.dropLast else parts
  parts.map fun l => if l.getLast? = some '\r' then l.dropLast else l

/-- `CsvSpectrumError` (src/crates/phosphor-data/src/spectral.rs). -/
inductive CsvSpectrumError
  | missingColumn (col : String)
  | parseFloatErr (line : ℕ) (col : String)
  | tooFewPoints
  | zeroIntensity
  deriving DecidableEq, Repr

/-- The `Display` rendering of a `CsvSpectrumError`. -/
def CsvSpectrumError.describe : CsvSpectrumError → String
  | .missingColumn col => "missing required column: " ++ col
  | .parseFloatErr line col => "line " ++ toString line ++ ", column " ++ col
  | .tooFewPoints => "need at least 2 data points for interpolation"
  | .zeroIntensity => "total integrated intensity is zero"

/-- Split a CSV line on commas and trim each field. -/
def csvFields (line : List Char) : List (List Char) :=
  (splitOnChar ',' line).map trimChars

/-- A comment or blank line, skipped by the CSV reader. -/
def isSkippableLine (line : List Char) : Bool :=
  (trimChars line).isEmpty || (trimChars line).headD ' ' = '#'

/-- Find the header row: the first non-skippable line (step 2). -/
def findHeader : List (ℕ × List Char) → Option (List Char × List (ℕ × List Char))
  | [] => none
  | (_, l) :: rest => if isSkippableLine l then findHeader rest else some (l, rest)

/-- Parse the data rows into `(wavelength, intensity)` points, clamping
intensity below at 0 and reporting 1-indexed parse failures (step 3). -/
def parsePoints (wl_idx int_idx : ℕ) :
    List (ℕ × List Char) → Except CsvSpectrumError (List (ℚ × ℚ))
  | [] => .ok []
  | (idx, l) :: rest =>
    if isSkippableLine l then parsePoints wl_idx int_idx rest
    else
      let fields := csvFields l
      match parseRatWhole ((fields.get? wl_idx).getD []) with
      | none => .error (.parseFloatErr (idx + 1) ("wavelength_nm"))
      | some wl =>
        match parseRatWhole ((fields.get? int_idx).getD []) with
        | none => .error (.parseFloatErr (idx + 1) ("rel_intensity"))
        | some inten =>
          match parsePoints wl_idx int_idx rest with
          | .error e => .error e
          | .ok ps => .ok ((wl, max inten 0) :: ps)

/-- Trapezoidal area of one spectrum segment clipped to a band (step 6 body). -/
def segmentArea (lo hi : ℚ) (p0 p1 : ℚ × ℚ) : ℚ :=
  let x0 := p0.1
  let y0 := p0.2
  let x1 := p1.1
  let y1 := p1.2
  if x1 ≤ lo ∨ hi ≤ x0 then 0
  else
    let c0 := if x0 < lo then (lo, y0 + (lo - x0) / (x1 - x0) * (y1 - y0)) else (x0, y0)
    let c1 := if hi < x1 then (hi, y0 + (hi - x0) / (x1 - x0) * (y1 - y0)) else (x1, y1)
    let dx := c1.1 - c0.1
    if 0 < dx then (c0.2 + c1.2) * (1 / 2) * dx else 0

/-- Trapezoidal integral over all adjacent point pairs, clipped to a band. -/
def bandIntegral (lo hi : ℚ) (points : List (ℚ × ℚ)) : ℚ :=
  ((points.zip points.tail).map fun pq => segmentArea lo hi pq.1 pq.2).sum

/-- `csv_to_emission_weights` (src/crates/phosphor-data/src/spectral.rs):
header discovery, column lookup, point parsing, sort by wavelength,
band-clipped trapezoidal integration, and L1 normalization. -/
def csv_to_emission_weights (csv_text : String) :
    Except CsvSpectrumError (List ℚ) :=
  match findHeader (rustLines csv_text.toList).enum with
  | none => .error .tooFewPoints
  | some (header, rest) =>
    let columns := csvFields header
    match columns.findIdx? (fun c => c = ("wavelength_nm").toList) with
    | none => .error (.missingColumn ("wavelength_nm"))
    | some wl_idx =>
      match columns.findIdx? (fun c => c = ("rel_intensity").toList) with
      | none => .error (.missingColumn ("rel_intensity"))
      | some int_idx =>
        match parsePoints wl_idx int_idx rest with
        | .error e => .error e
        | .ok points =>
          if points.length < 2 then .error .tooFewPoints
          else
            let sorted := points.insertionSort fun p q => p.1 ≤ q.1
            let weights := (List.range SPECTRAL_BANDS).map fun band =>
              bandIntegral (band_range band).1 (band_range band).2 sorted
            let total := weights.sum
            if total ≤ 0 then .error .zeroIntensity
            else .ok (weights.map (· / total))

/-- `BeamSample` (src/src/beam/mod.rs), parametric in the scalar model:
exact rationals where samples are parsed or compared, reals where they are
produced by transcendental arithmetic. -/
structure BeamSample (α : Type) where
  x : α
  y : α
  intensity : α
  dt : α
  deriving DecidableEq, Repr

/-- Loop state of `arc_length_resample`: the emitted output so far plus the
`prev_x`, `prev_y`, `accum_energy`, `accum_dist` and `in_run` locals. -/
structure ResampleState where
  prev_x : ℝ
  prev_y : ℝ
  accum_energy : ℝ
  accum_dist : ℝ
  in_run : Bool
  output : List (BeamSample ℝ)

/-- One iteration of the `for &sample in samples` loop of
`arc_length_resample` (src/src/beam/resample.rs). -/
noncomputable def resampleStep (threshold : ℝ) (st : ResampleState) (s : BeamSample ℝ) :
    ResampleState :=
  if s.intensity ≤ 0 then
    { st with
      output := st.output ++
        (if st.in_run ∧ 0 < st.accum_energy then
          [⟨st.prev_x, st.prev_y, st.accum_energy, 1⟩] else []) ++ [s]
      accum_energy := 0
      accum_dist := 0
      in_run := false }
  else if st.in_run = false then
    { st with
      output := st.output ++ [s]
      prev_x := s.x
      prev_y := s.y
      accum_energy := 0
      accum_dist := 0
      in_run := true }
  else
    let d := st.accum_dist + Real.sqrt ((s.x - st.prev_x) * (s.x - st.prev_x) +
      (s.y - st.prev_y) * (s.y - st.prev_y))
    let e := st.accum_energy + s.intensity * s.dt
    if threshold ≤ d then
      { st with
        output := st.output ++ [⟨s.x, s.y, e, 1⟩]
        prev_x := s.x
        prev_y := s.y
        accum_energy := 0
        accum_dist := 0 }
    else
      { st with prev_x := s.x, prev_y := s.y, accum_energy := e, accum_dist := d }

/-- `arc_length_resample` (src/src/beam/resample.rs): merge runs of lit
samples into depositions spaced roughly `threshold` apart, with a final
flush of pending energy. -/
noncomputable def arc_length_resample (samples : List (BeamSample ℝ)) (threshold : ℝ) :
    List (BeamSample ℝ) :=
  if samples.isEmpty = true ∨ threshold ≤ 0 then samples
  else
    let st := samples.foldl (resampleStep threshold) ⟨0, 0, 0, 0, false, []⟩
    st.output ++
      (if st.in_run ∧ 0 < st.accum_energy then
        [⟨st.prev_x, st.prev_y, st.accum_energy, 1⟩] else [])

/-- Total `intensity · dt` of a sample list. -/
def beamEnergy (l : List (BeamSample ℝ)) : ℝ :=
  (l.map fun s => s.intensity * s.dt).sum

/-- The pending flush energy of a resample state: `accum_energy` when a run is
open with positive energy, otherwise nothing. -/
noncomputable def flushEnergy (st : ResampleState) : ℝ :=
  if st.in_run ∧ 0 < st.accum_energy then st.accum_energy else 0

/-- The sample channel: capacity plus queued elements, oldest first. -/
structure SampleChannel (α : Type) where
  capacity : ℕ
  queue : List α
  deriving DecidableEq, Repr

/-- `sample_channel(capacity)`: an empty ring of the given capacity. -/
def sample_channel (α : Type) (capacity : ℕ) : SampleChannel α :=
  ⟨capacity, []⟩

/-- `SampleProducer::push_bulk`: write `min (samples.len(), free slots)`
samples, returning the count written; the rest of the slice is dropped. -/
def push_bulk {α : Type} (ch : SampleChannel α) (samples : List α) :
    ℕ × SampleChannel α :=
  let available := ch.capacity - ch.queue.length
  let n := min samples.length available
  (n, { ch with queue := ch.queue ++ samples.take n })

/-- `SampleConsumer::pending`. -/
def pending {α : Type} (ch : SampleChannel α) : ℕ :=
  ch.queue.length

/-- `SampleConsumer::drain_up_to(max)`: remove and return the
`min (pending, max)` oldest samples; the remainder stays queued. -/
def drain_up_to {α : Type} (ch : SampleChannel α) (max : ℕ) :
    List α × SampleChannel α :=
  let count := min ch.queue.length max
  (ch.queue.take count, { ch with queue := ch.queue.drop count })

/-- One operation against the channel: a bulk push or a bounded drain. -/
inductive ChanOp (α : Type)
  | push (samples : List α)
  | drain (max : ℕ)
  deriving DecidableEq, Repr

/-- Ledger of a run: the channel plus everything delivered, accepted and
counted so far. -/
structure ChanRun (α : Type) where
  chan : SampleChannel α
  drained : List α
  accepted : List α
  written : ℕ
  dropped : ℕ
  offered : ℕ
  deriving DecidableEq, Repr

/-- Apply one operation to the run ledger. -/
def chanStep {α : Type} (st : ChanRun α) : ChanOp α → ChanRun α
  | .push samples =>
    let r := push_bulk st.chan samples
    { st with
      chan := r.2
      accepted := st.accepted ++ samples.take r.1
      written := st.written + r.1
      dropped := st.dropped + (samples.length - r.1)
      offered := st.offered + samples.length }
  | .drain max =>
    let r := drain_up_to st.chan max
    { st with chan := r.2, drained := st.drained ++ r.1 }

/-- Run a sequence of operations against a fresh channel of capacity `K`. -/
def runChan {α : Type} (K : ℕ) (ops : List (ChanOp α)) : ChanRun α :=
  ops.foldl chanStep ⟨sample_channel α K, [], [], 0, 0, 0⟩

/-- The inductive invariant of a channel run. -/
def ChanInv {α : Type} (K : ℕ) (st : ChanRun α) : Prop :=
  st.chan.capacity = K ∧ st.chan.queue.length ≤ K ∧
    st.written + st.dropped = st.offered ∧
    st.drained ++ st.chan.queue = st.accepted ∧
    st.written = st.accepted.length

/-- `Waveform`. -/
inductive Waveform
  | sine
  | triangle
  | square
  | sawtooth
  deriving DecidableEq, Repr

/-- `ChannelConfig`. -/
structure ChannelConfig where
  waveform : Waveform
  frequency : ℝ
  amplitude : ℝ
  phase : ℝ
  dc_offset : ℝ

/-- Rust `f32::rem_euclid` (for positive modulus). -/
noncomputable def remEuclid (a b : ℝ) : ℝ := a - b * ⌊a / b⌋

/-- `std::f32::consts::TAU`. -/
noncomputable def TAU : ℝ := 2 * Real.pi

/-- `eval_waveform`: evaluate a waveform at phase `p` radians. -/
noncomputable def eval_waveform : Waveform → ℝ → ℝ
  | .sine, p => Real.sin p
  | .triangle, p =>
    let t := remEuclid p TAU / TAU
    if t < 0.25 then 4 * t
    else if t < 0.75 then 2 - 4 * t
    else 4 * t - 4
  | .square, p => if 0 ≤ Real.sin p then 1 else -1
  | .sawtooth, p =>
    let t := remEuclid p TAU / TAU
    2 * t - 1

/-- `eval_channel`: `0.5 + amp · wave(TAU·f·t + phase) + dc`, clamped
to `[0, 1]`. -/
noncomputable def eval_channel (config : ChannelConfig) (t : ℝ) : ℝ :=
  let phase := TAU * config.frequency * t + config.phase
  let deflection := config.amplitude * eval_waveform config.waveform phase + config.dc_offset
  min (max (0.5 + deflection) 0) 1

/-- `OscilloscopeSource`. -/
structure OscilloscopeSource where
  x_channel : ChannelConfig
  y_channel : ChannelConfig
  sample_rate : ℝ
  t_current : ℝ

/-- `OscilloscopeSource::generate`: `count` samples at `t_current + i·dt` with
`dt = 1 / sample_rate`, then advance `t_current` by `count·dt`. -/
noncomputable def osc_generate (src : OscilloscopeSource) (count : ℕ) :
    List (BeamSample ℝ) × OscilloscopeSource :=
  let dt := 1 / src.sample_rate
  ((List.range count).map fun (i : ℕ) =>
    let t := src.t_current + (i : ℝ) * dt
    ⟨eval_channel src.x_channel t, eval_channel src.y_channel t, 1, dt⟩,
   { src with t_current := src.t_current + (count : ℝ) * dt })

/-- `MIN_SUBDIVISIONS`. -/
def MIN_SUBDIVISIONS : ℕ := 2

/-- `Command`: one parsed line of the external protocol, with the f32
payloads as exact rationals. -/
inductive Command
  | beam (sample : BeamSample ℚ)
  | segment (x0 y0 x1 y1 intensity : ℚ)
  | frameSync
  deriving DecidableEq, Repr

/-- nom `space1`: one or more spaces or tabs, or fail. -/
def space1 (cs : List Char) : Option (List Char) :=
  let sp := cs.takeWhile fun c => c = ' ' ∨ c = '\t'
  if sp.isEmpty then none else some (cs.dropWhile fun c => c = ' ' ∨ c = '\t')

/-- `sp_float`: a float preceded by at least one space. -/
def sp_float (cs : List Char) : Option (ℚ × List Char) :=
  match space1 cs with
  | none => none
  | some rest => parseFloatPrefix rest

/-- `parse_beam`: `B x y intensity dt`. -/
def parse_beam (cs : List Char) : Option (Command × List Char) :=
  match cs with
  | 'B' :: r =>
    match sp_float r with
    | none => none
    | some (x, r1) =>
      match sp_float r1 with
      | none => none
      | some (y, r2) =>
        match sp_float r2 with
        | none => none
        | some (intensity, r3) =>
          match sp_float r3 with
          | none => none
          | some (dt, r4) => some (.beam ⟨x, y, intensity, dt⟩, r4)
  | _ => none

/-- `parse_segment`: `L x0 y0 x1 y1 intensity`. -/
def parse_segment (cs : List Char) : Option (Command × List Char) :=
  match cs with
  | 'L' :: r =>
    match sp_float r with
    | none => none
    | some (x0, r1) =>
      match sp_float r1 with
      | none => none
      | some (y0, r2) =>
        match sp_float r2 with
        | none => none
        | some (x1, r3) =>
          match sp_float r3 with
          | none => none
          | some (y1, r4) =>
            match sp_float r4 with
            | none => none
            | some (intensity, r5) => some (.segment x0 y0 x1 y1 intensity, r5)
  | _ => none

/-- `parse_frame_sync`: tag `F`. -/
def parse_frame_sync : List Char → Option (Command × List Char)
  | 'F' :: r => some (.frameSync, r)
  | _ => none

/-- nom `multispace0`. -/
def multispace0 (cs : List Char) : List Char :=
  cs.dropWhile isWhitespaceChar

/-- `parse_line` (src/src/beam/external.rs): blank and `#` lines yield no
command, `B`/`L`/`F` parse (trailing input ignored), anything else is an
error naming the offending line. -/
def parse_line (line : List Char) : Except String (Option Command) :=
  let trimmed := trimChars line
  if trimmed.isEmpty ∨ trimmed.headD ' ' = '#' then .ok none
  else
    let input := multispace0 trimmed
    match parse_beam input with
    | some (cmd, _) => .ok (some cmd)
    | none =>
      match parse_segment input with
      | some (cmd, _) => .ok (some cmd)
      | none =>
        match parse_frame_sync input with
        | some (cmd, _) => .ok (some cmd)
        | none => .error ("unknown command: " ++ String.mk trimmed)

/-- `subdivide_segment`: dense samples along a segment, at least
`MIN_SUBDIVISIONS`, with `dt` the per-step traversal time at `beam_speed`. -/
noncomputable def subdivide_segment (x0 y0 x1 y1 intensity beam_speed spot_radius : ℝ) :
    List (BeamSample ℝ) :=
  let dx := x1 - x0
  let dy := y1 - y0
  let length := Real.sqrt (dx * dx + dy * dy)
  let steps := max (⌈length / spot_radius⌉.toNat) MIN_SUBDIVISIONS
  let dt := length / (beam_speed * (steps : ℝ))
  (List.range steps).map fun (i : ℕ) =>
    let t := ((i : ℝ) + 0.5) / (steps : ℝ)
    ⟨x0 + dx * t, y0 + dy * t, intensity, dt⟩

/-- Interpret an exactly-parsed sample as reals. -/
def castSample (s : BeamSample ℚ) : BeamSample ℝ :=
  ⟨(s.x : ℝ), (s.y : ℝ), (s.intensity : ℝ), (s.dt : ℝ)⟩

/-- `ExternalSource`: queued protocol lines and the read position. -/
structure ExternalSource where
  beam_speed : ℝ
  lines : List (List Char)
  position : ℕ

/-- The `while` loop of `ExternalSource::generate`: process queued lines
until a frame sync or the end of input; beam lines emit one sample, segment
lines their subdivision, comment/blank and erroring lines nothing.  Returns
the emitted samples and the number of lines consumed. -/
noncomputable def extProcess (beam_speed spot_radius : ℝ) :
    List (List Char) → List (BeamSample ℝ) × ℕ
  | [] => ([], 0)
  | l :: rest =>
    match parse_line l with
    | .ok (some (.beam s)) =>
      let r := extProcess beam_speed spot_radius rest
      (castSample s :: r.1, r.2 + 1)
    | .ok (some (.segment x0 y0 x1 y1 intensity)) =>
      let r := extProcess beam_speed spot_radius rest
      (subdivide_segment (x0 : ℝ) (y0 : ℝ) (x1 : ℝ) (y1 : ℝ) (intensity : ℝ)
          beam_speed spot_radius ++ r.1, r.2 + 1)
    | .ok (some .frameSync) => ([], 1)
    | .ok none =>
      let r := extProcess beam_speed spot_radius rest
      (r.1, r.2 + 1)
    | .error _ =>
      let r := extProcess beam_speed spot_radius rest
      (r.1, r.2 + 1)

/-- `ExternalSource::generate`: run the loop from the current position and
advance the position past the consumed lines. -/
noncomputable def ext_generate (src : ExternalSource) (spot_radius : ℝ) :
    List (BeamSample ℝ) × ExternalSource :=
  let r := extProcess src.beam_speed spot_radius (src.lines.drop src.position)
  (r.1, { src with position := src.position + r.2 })

instance exceptDecEq {ε α : Type} [DecidableEq ε] [DecidableEq α] :
    DecidableEq (Except ε α) := fun a b =>
  match a, b with
  | .error e, .error f =>
    if h : e = f then isTrue (by rw [h]) else isFalse (by intro hc; cases hc; exact h rfl)
  | .error _, .ok _ => isFalse (by intro hc; cases hc)
  | .ok _, .error _ => isFalse (by intro hc; cases hc)
  | .ok a, .ok b =>
    if h : a = b then isTrue (by rw [h]) else isFalse (by intro hc; cases hc; exact h rfl)

/-- The protocol lines of spec scenario 5, fed to the external source. -/
def extScenarioLines : List (List Char) :=
  [("B 0.5 0.75 1.0 0.001").toList, ("F").toList, ("B 0.9 0.9 1.0 0.001").toList]

/-- The spectrum CSV witnessing the CSV half of C7: two unit-intensity points
at 400 and 401 nm, wholly inside band 0. -/
def csvExample : String :=
  "wavelength_nm,rel_intensity\n400,1\n401,1"

/-- The GPU passes recorded into the command buffer by `GpuState::render`. -/
inductive GpuPass
  | beamWrite
  | spectralResolve
  | decay
  | faceplateScatter
  | composite
  | uiOverlay
  deriving DecidableEq, Repr

/-- The pass trace of one `GpuState::render` frame, in source order: beam
write only when drained samples exist, then spectral resolve, decay, halation
(faceplate scatter), composite, and the optional egui overlay. -/
def render_pass_trace (samples_nonempty has_egui : Bool) : List GpuPass :=
  (if samples_nonempty then [GpuPass.beamWrite] else []) ++
    [GpuPass.spectralResolve, GpuPass.decay, GpuPass.faceplateScatter, GpuPass.composite] ++
    (if has_egui then [GpuPass.uiOverlay] else [])

/-- `PhosphorCategory`. -/
inductive PhosphorCategory
  | generalPurpose
  | shortDecay
  | videoDisplay
  | longDecaySulfide
  deriving DecidableEq, Repr

/-- `LayerData`: a nested `[fluorescence]`/`[phosphorescence]` sub-table. -/
structure LayerData where
  peak_nm : ℚ
  fwhm_nm : Option ℚ
  spectrum_csv : Option String
  decay_terms : List DecayTerm
  deriving DecidableEq, Repr

/-- `PhosphorData`: one deserialized TOML phosphor entry. -/
structure PhosphorData where
  description : String
  category : String
  dual_layer : Bool
  peak_nm : ℚ
  fwhm_nm : Option ℚ
  spectrum_csv : Option String
  decay_terms : List DecayTerm
  relative_luminance : ℚ
  relative_writing_speed : ℚ
  fluorescence : Option LayerData
  phosphorescence : Option LayerData
  deriving DecidableEq, Repr

/-- `PhosphorLayer`. -/
structure PhosphorLayer where
  emission_weights : List ℝ
  decay_terms : List DecayTerm

/-- `PhosphorType`. -/
structure PhosphorType where
  designation : String
  description : String
  category : PhosphorCategory
  is_dual_layer : Bool
  fluorescence : PhosphorLayer
  phosphorescence : PhosphorLayer
  peak_wavelength_nm : ℚ
  relative_luminance : ℚ
  relative_writing_speed : ℚ

/-- `parse_category`: the four known categories; anything else is fatal. -/
def parse_category (s : String) : Except String PhosphorCategory :=
  if s = "general_purpose" then .ok .generalPurpose
  else if s = "short_decay" then .ok .shortDecay
  else if s = "video_display" then .ok .videoDisplay
  else if s = "long_decay_sulfide" then .ok .longDecaySulfide
  else .error ("Unknown phosphor category: " ++ s)

/-- `resolve_emission_weights`: CSV resolution against the base path when
`spectrum_csv` is given, else a Gaussian from `fwhm_nm`; missing both is
fatal.  The filesystem (`std::fs::read_to_string`) is abstracted as a
partial map from paths to contents. -/
noncomputable def resolve_emission_weights (fs : String → Option String)
    (peak_nm : ℚ) (fwhm_nm : Option ℚ) (spectrum_csv : Option String)
    (base_path : Option String) (designation : String) :
    Except String (List ℝ) :=
  match spectrum_csv with
  | some csv_rel =>
    match base_path with
    | none => .error (designation ++ ": spectrum_csv requires a base path for resolution")
    | some base =>
      match fs (base ++ "/" ++ csv_rel) with
      | none => .error (designation ++ ": failed to read " ++ base ++ "/" ++ csv_rel)
      | some csv_text =>
        match csv_to_emission_weights csv_text with
        | .ok ws => .ok (ws.map fun q => (q : ℝ))
        | .error e => .error (designation ++ ": failed to parse: " ++ e.describe)
  | none =>
    match fwhm_nm with
    | none => .error (designation ++ ": need fwhm_nm or spectrum_csv for emission weights")
    | some fwhm => .ok (gaussian_emission_weights (peak_nm : ℝ) (fwhm : ℝ))

/-- `build_phosphor`: dual-layer entries need both sub-tables (each resolving
its own weights, falling back to the top-level decay terms when a sub-table
gives none); single-layer entries duplicate the one layer.  Rust panics are
modelled as errors. -/
noncomputable def build_phosphor (fs : String → Option String) (designation : String)
    (data : PhosphorData) (base_path : Option String) :
    Except String PhosphorType :=
  if data.dual_layer then
    match data.fluorescence with
    | none => .error (designation ++ ": dual_layer = true but missing [fluorescence]")
    | some fl =>
      match data.phosphorescence with
      | none => .error (designation ++ ": dual_layer = true but missing [phosphorescence]")
      | some ph =>
        let fl_terms := if fl.decay_terms.isEmpty then data.decay_terms else fl.decay_terms
        let ph_terms := if ph.decay_terms.isEmpty then data.decay_terms else ph.decay_terms
        match resolve_emission_weights fs fl.peak_nm fl.fwhm_nm fl.spectrum_csv base_path
            designation with
        | .error e => .error e
        | .ok flw =>
          match resolve_emission_weights fs ph.peak_nm ph.fwhm_nm ph.spectrum_csv base_path
              designation with
          | .error e => .error e
          | .ok phw =>
            match parse_category data.category with
            | .error e => .error e
            | .ok cat =>
              .ok ⟨designation, data.description, cat, true, ⟨flw, fl_terms⟩,
                ⟨phw, ph_terms⟩, data.peak_nm, data.relative_luminance,
                data.relative_writing_speed⟩
  else
    match resolve_emission_weights fs data.peak_nm data.fwhm_nm data.spectrum_csv base_path
        designation with
    | .error e => .error e
    | .ok w =>
      match parse_category data.category with
      | .error e => .error e
      | .ok cat =>
        .ok ⟨designation, data.description, cat, false, ⟨w, data.decay_terms⟩,
          ⟨w, data.decay_terms⟩, data.peak_nm, data.relative_luminance,
          data.relative_writing_speed⟩

/-- `load_phosphors_with_base_path` on the deserialized table: build each
entry in order, aborting on the first failure (the Rust code panics). -/
noncomputable def load_phosphors (fs : String → Option String) :
    List (String × PhosphorData) → Option String → Except String (List PhosphorType)
  | [], _ => .ok []
  | entry :: rest, base_path =>
    match build_phosphor fs entry.1 entry.2 base_path with
    | .error e => .error e
    | .ok p =>
      match load_phosphors fs rest base_path with
      | .error e => .error e
      | .ok ps => .ok (p :: ps)

/-- Whether an `Except` result is a success. -/
def exceptIsOk {ε α : Type} : Except ε α → Bool
  | .ok _ => true
  | .error _ => false

/-- A dual-layer entry missing both sub-tables. -/
def badPhosphorData : PhosphorData :=
  ⟨"test entry", "general_purpose", true, 525, none, none, [], 50, 60, none, none⟩
theorem classify_foldl (tau_cutoff : ℚ) (terms : List DecayTerm) (c : DecayClassification) :
    terms.foldl (classifyStep tau_cutoff) c =
      ⟨c.instant_exp_count + terms.countP (isInstantExp tau_cutoff),
       c.slow_exp_count + terms.countP (isSlowExp tau_cutoff),
       c.has_power_law || terms.any isPowerLaw⟩ := by
  induction terms generalizing c with
  | nil => simp
  | cons t ts ih =>
    cases t with
    | exponential a tau =>
      by_cases h : tau < tau_cutoff
      · simp [classifyStep, h, ih, List.countP_cons, isInstantExp, isSlowExp, isPowerLaw,
          not_le.mpr h]
        omega
      · simp [classifyStep, h, ih, List.countP_cons, isInstantExp, isSlowExp, isPowerLaw,
          not_lt.mp h]
        omega
    | powerLaw a al b =>
      simp [classifyStep, ih, List.countP_cons, isInstantExp, isSlowExp, isPowerLaw]

theorem classify_decay_terms_spec (terms : List DecayTerm) (tau_cutoff : ℚ) :
    classify_decay_terms terms tau_cutoff =
      ⟨terms.countP (isInstantExp tau_cutoff), terms.countP (isSlowExp tau_cutoff),
       terms.any isPowerLaw⟩ := by
  simp [classify_decay_terms, classify_foldl]

theorem countP_tier_partition (terms : List DecayTerm) (tau_cutoff : ℚ) :
    terms.countP (isInstantExp tau_cutoff) + terms.countP (isSlowExp tau_cutoff) +
      terms.countP isPowerLaw = terms.length := by
  induction terms with
  | nil => simp
  | cons t ts ih =>
    cases t with
    | exponential a tau =>
      by_cases h : tau < tau_cutoff <;>
        simp [List.countP_cons, isInstantExp, isSlowExp, isPowerLaw, h, not_lt.mp] <;>
        omega
    | powerLaw a al b =>
      simp [List.countP_cons, isInstantExp, isSlowExp, isPowerLaw]
      omega

/-- C1 counterexample: a single instant exponential (`tau = 0 s`, cutoff
`1e-4 s`) classifies as `(instant = 1, slow = 0, pl = false)`; the claimed
formula gives 1 layer, while `accum_layer_count` gives 16 and
`DecayClassification::accum_layers` gives 0. -/
theorem c1_counterexample :
    (let terms : List DecayTerm := [.exponential 1 0]
     let c := classify_decay_terms terms TAU_CUTOFF
     accum_layer_count c.slow_exp_count c.has_power_law (decide (0 < c.instant_exp_count)) ≠
        c.slow_exp_count + (if c.has_power_law then 2 else 0) +
          (if 0 < c.instant_exp_count then 1 else 0)) ∧
      (let terms : List DecayTerm := [.exponential 1 0]
       let c := classify_decay_terms terms TAU_CUTOFF
       c.accum_layers ≠
        c.slow_exp_count + (if c.has_power_law then 2 else 0) +
          (if 0 < c.instant_exp_count then 1 else 0)) := by
  have hc : classify_decay_terms [DecayTerm.exponential 1 0] TAU_CUTOFF =
      ⟨1, 0, false⟩ := by
    rw [classify_decay_terms_spec]
    norm_num [isInstantExp, isSlowExp, isPowerLaw, TAU_CUTOFF, List.countP_cons]
  refine ⟨?_, ?_⟩ <;>
    simp [hc, accum_layer_count, DecayClassification.accum_layers, SPECTRAL_BANDS]

/-- C1 (amended): for every term list and cutoff, `accum_layer_count` applied
to the classification (with `has_instant` as at its call site,
src/src/gpu/mod.rs `switch_phosphor`) equals
`SPECTRAL_BANDS·slow + (SPECTRAL_BANDS+1)·[has_pl] + SPECTRAL_BANDS·[has_instant]`
reduced modulo `2^32`, and `DecayClassification::accum_layers` equals
`slow + 2·[has_pl]`, with no contribution from instant terms in either. -/
theorem c1_accum_layer_count_spec (terms : List DecayTerm) (tau_cutoff : ℚ) :
    accum_layer_count (classify_decay_terms terms tau_cutoff).slow_exp_count
        (classify_decay_terms terms tau_cutoff).has_power_law
        (decide (0 < (classify_decay_terms terms tau_cutoff).instant_exp_count)) =
      (SPECTRAL_BANDS * terms.countP (isSlowExp tau_cutoff) +
        (if terms.any isPowerLaw then SPECTRAL_BANDS + 1 else 0) +
        (if terms.any (isInstantExp tau_cutoff) then SPECTRAL_BANDS else 0)) % 2 ^ 32 ∧
      (classify_decay_terms terms tau_cutoff).accum_layers =
        terms.countP (isSlowExp tau_cutoff) + (if terms.any isPowerLaw then 2 else 0) := by
  rw [classify_decay_terms_spec]
  have hany : (0 < terms.countP (isInstantExp tau_cutoff)) ↔
      terms.any (isInstantExp tau_cutoff) = true := by
    rw [List.countP_pos_iff, List.any_eq_true]
  constructor
  · simp only [accum_layer_count]
    by_cases hpl : terms.any isPowerLaw = true <;>
      by_cases hin : terms.any (isInstantExp tau_cutoff) = true <;>
        simp [hpl, hin, hany, Nat.mul_comm]
  · simp [DecayClassification.accum_layers]

/-- C2 counterexample: with two power-law terms the classification sums to
`0 + 0 + 1 = 1`, but the term list has length 2. -/
theorem c2_counterexample :
    (let terms : List DecayTerm := [.powerLaw 1 1 1, .powerLaw 1 1 1]
     let c := classify_decay_terms terms TAU_CUTOFF
     c.instant_exp_count + c.slow_exp_count + (if c.has_power_law then 1 else 0) ≠
       terms.length) := by
  have hc : classify_decay_terms [DecayTerm.powerLaw 1 1 1, DecayTerm.powerLaw 1 1 1]
      TAU_CUTOFF = ⟨0, 0, true⟩ := by
    rw [classify_decay_terms_spec]
    norm_num [isInstantExp, isSlowExp, isPowerLaw, List.countP_cons]
  simp [hc]

/-- C2 (amended): `instant_exp_count + slow_exp_count + [has_power_law]`
equals the number of terms exactly when the list contains at most one
power-law term; in general the sum counts each exponential once but all
power-law terms collectively as one. -/
theorem c2_classification_sum_iff (terms : List DecayTerm) (tau_cutoff : ℚ) :
    ((classify_decay_terms terms tau_cutoff).instant_exp_count +
        (classify_decay_terms terms tau_cutoff).slow_exp_count +
        (if (classify_decay_terms terms tau_cutoff).has_power_law then 1 else 0) =
      terms.length) ↔ terms.countP isPowerLaw ≤ 1 := by
  rw [classify_decay_terms_spec]
  simp only
  have hpart := countP_tier_partition terms tau_cutoff
  have hany : terms.any isPowerLaw = true ↔ 0 < terms.countP isPowerLaw := by
    rw [List.any_eq_true, ← List.countP_pos_iff]
  cases h : terms.any isPowerLaw with
  | true =>
    have hpos := hany.mp h
    rw [if_pos rfl]
    omega
  | false =>
    have hzero : terms.countP isPowerLaw = 0 := by
      rcases Nat.eq_zero_or_pos (terms.countP isPowerLaw) with h0 | h0
      · exact h0
      · rw [hany.mpr h0] at h
        cases h
    rw [if_neg (by simp)]
    omega

theorem list_sum_map_div {α : Type} [DivisionRing α] (l : List α) (s : α) :
    (l.map (fun x => x / s)).sum = l.sum / s := by
  induction l with
  | nil => simp
  | cons x xs ih => simp [ih, add_div]

/-- C7: every emission-weights vector sums to within 0.01 of 1 — both when
synthesized as a Gaussian from `peak_nm` and a positive `fwhm_nm`, and when
integrated from a spectrum CSV that parses successfully. -/
theorem c7_emission_weights_sum (peak fwhm : ℝ) (_hf : 0 < fwhm) :
    |(gaussian_emission_weights peak fwhm).sum - 1| < 1 / 100 ∧
      ∀ csv w, csv_to_emission_weights csv = .ok w → |w.sum - (1 : ℚ)| < 1 / 100 := by
  constructor
  · have hpos : 0 < ((List.range SPECTRAL_BANDS).map fun i =>
        Real.exp (-0.5 * ((((band_center i : ℚ) : ℝ) - peak) / (fwhm / 2.355)) *
          ((((band_center i : ℚ) : ℝ) - peak) / (fwhm / 2.355)))).sum := by
      apply List.sum_pos
      · intro x hx
        obtain ⟨i, _, rfl⟩ := List.mem_map.mp hx
        exact Real.exp_pos _
      · simp [SPECTRAL_BANDS]
    simp only [gaussian_emission_weights]
    rw [if_pos hpos]
    rw [show (fun x : ℝ => x / _) = (fun x : ℝ => x / (((List.range SPECTRAL_BANDS).map fun i =>
        Real.exp (-0.5 * ((((band_center i : ℚ) : ℝ) - peak) / (fwhm / 2.355)) *
          ((((band_center i : ℚ) : ℝ) - peak) / (fwhm / 2.355)))).sum)) from rfl]
    rw [list_sum_map_div, div_self (ne_of_gt hpos)]
    norm_num
  · intro csv w h
    simp only [csv_to_emission_weights] at h
    split at h
    · cases h
    · split at h
      · cases h
      · split at h
        · cases h
        · split at h
          · cases h
          · split at h
            · cases h
            · split at h
              · cases h
              · rename_i htot
                rw [Except.ok.injEq] at h
                subst h
                rw [list_sum_map_div, div_self (by exact ne_of_gt (lt_of_not_le htot))]
                norm_num

theorem beamEnergy_append (a b : List (BeamSample ℝ)) :
    beamEnergy (a ++ b) = beamEnergy a + beamEnergy b := by
  simp [beamEnergy]

theorem beamEnergy_cons (s : BeamSample ℝ) (l : List (BeamSample ℝ)) :
    beamEnergy (s :: l) = s.intensity * s.dt + beamEnergy l := by
  simp [beamEnergy]

theorem flushEnergy_eq (st : ResampleState) (hE : 0 ≤ st.accum_energy)
    (hR : st.in_run = false → st.accum_energy = 0) :
    flushEnergy st = st.accum_energy := by
  unfold flushEnergy
  split
  · rfl
  · rename_i hcond
    rcases Bool.eq_false_or_eq_true st.in_run with hr | hr
    · have hnlt : ¬0 < st.accum_energy := fun hlt => hcond ⟨hr, hlt⟩
      linarith
    · rw [hR hr]

theorem resampleStep_energy (threshold : ℝ) (st : ResampleState) (s : BeamSample ℝ)
    (hdt : 0 < s.dt) (hE : 0 ≤ st.accum_energy)
    (hR : st.in_run = false → st.accum_energy = 0) :
    beamEnergy (resampleStep threshold st s).output +
        (resampleStep threshold st s).accum_energy =
      beamEnergy st.output + st.accum_energy + s.intensity * s.dt ∧
      0 ≤ (resampleStep threshold st s).accum_energy ∧
      ((resampleStep threshold st s).in_run = false →
        (resampleStep threshold st s).accum_energy = 0) := by
  unfold resampleStep
  split
  · rename_i hblank
    refine ⟨?_, le_refl 0, fun _ => rfl⟩
    simp only [beamEnergy_append]
    have hflush : beamEnergy
        (if st.in_run ∧ 0 < st.accum_energy then
          [⟨st.prev_x, st.prev_y, st.accum_energy, (1 : ℝ)⟩] else []) =
        st.accum_energy := by
      rw [← flushEnergy_eq st hE hR]
      unfold flushEnergy
      split <;> simp [beamEnergy]
    rw [hflush]
    simp [beamEnergy]
  · split
    · rename_i hlit hrun
      refine ⟨?_, le_refl 0, fun _ => rfl⟩
      rw [hR hrun]
      simp [beamEnergy_append, beamEnergy]
    · rename_i hlit hrun
      dsimp only
      split
      · refine ⟨?_, le_refl 0, fun _ => rfl⟩
        simp [beamEnergy_append, beamEnergy]
        ring
      · have hpos : 0 < s.intensity := lt_of_not_le hlit
        refine ⟨by simp [add_assoc], ?_, ?_⟩
        · have hmul : 0 < s.intensity * s.dt := mul_pos hpos hdt
          simp only
          linarith
        · intro hfalse
          simp only at hfalse
          rcases Bool.eq_false_or_eq_true st.in_run with hr | hr
          · rw [hr] at hfalse
            cases hfalse
          · exact absurd hr hrun

theorem resample_foldl_energy (threshold : ℝ) (samples : List (BeamSample ℝ))
    (hdt : ∀ s ∈ samples, 0 < s.dt) (st : ResampleState)
    (hE : 0 ≤ st.accum_energy) (hR : st.in_run = false → st.accum_energy = 0) :
    beamEnergy (samples.foldl (resampleStep threshold) st).output +
        (samples.foldl (resampleStep threshold) st).accum_energy =
      beamEnergy st.output + st.accum_energy + beamEnergy samples ∧
      0 ≤ (samples.foldl (resampleStep threshold) st).accum_energy ∧
      ((samples.foldl (resampleStep threshold) st).in_run = false →
        (samples.foldl (resampleStep threshold) st).accum_energy = 0) := by
  induction samples generalizing st with
  | nil => simpa [beamEnergy] using ⟨hE, hR⟩
  | cons s rest ih =>
    have hstep := resampleStep_energy threshold st s (hdt s (List.mem_cons_self s rest)) hE hR
    have ihrest := ih (fun t ht => hdt t (List.mem_cons_of_mem s ht))
      (resampleStep threshold st s) hstep.2.1 hstep.2.2
    refine ⟨?_, ihrest.2.1, ihrest.2.2⟩
    simp only [List.foldl_cons]
    rw [ihrest.1, hstep.1, beamEnergy_cons]
    ring

/-- C3: for every sample list whose entries have positive `dt` (the beam-sample
data model) and every positive threshold, arc-length resampling conserves
total `intensity · dt` to within `1e-5`; in the exact-arithmetic model the
conservation is in fact exact. -/
theorem c3_resample_energy_conserved (samples : List (BeamSample ℝ)) (threshold : ℝ)
    (_ht : 0 < threshold) (hdt : ∀ s ∈ samples, 0 < s.dt) :
    |beamEnergy (arc_length_resample samples threshold) - beamEnergy samples| <
      1 / 10 ^ 5 := by
  unfold arc_length_resample
  split
  · norm_num
  · have hfold := resample_foldl_energy threshold samples hdt ⟨0, 0, 0, 0, false, []⟩
      (le_refl 0) (fun _ => rfl)
    set st := samples.foldl (resampleStep threshold) ⟨0, 0, 0, 0, false, []⟩ with hst
    have hflush : beamEnergy
        (if st.in_run ∧ 0 < st.accum_energy then
          [⟨st.prev_x, st.prev_y, st.accum_energy, (1 : ℝ)⟩] else []) =
        st.accum_energy := by
      rw [← flushEnergy_eq st hfold.2.1 hfold.2.2]
      unfold flushEnergy
      split <;> simp [beamEnergy]
    rw [beamEnergy_append, hflush]
    have htot : beamEnergy st.output + st.accum_energy = beamEnergy samples := by
      have h1 := hfold.1
      simpa [beamEnergy] using h1
    rw [htot]
    norm_num

/-- C3 witness: the hypotheses hold and the bound follows on the concrete
single-sample input `x = y = 0, intensity = 1, dt = 1` with threshold 1. -/
theorem c3_witness :
    (0 : ℝ) < 1 ∧ (∀ s ∈ ([⟨0, 0, 1, 1⟩] : List (BeamSample ℝ)), 0 < s.dt) ∧
      |beamEnergy (arc_length_resample [⟨0, 0, 1, 1⟩] 1) -
          beamEnergy [(⟨0, 0, 1, 1⟩ : BeamSample ℝ)]| < 1 / 10 ^ 5 :=
  ⟨by norm_num, by intro s hs; rw [List.mem_singleton] at hs; subst hs; norm_num,
    c3_resample_energy_conserved [⟨0, 0, 1, 1⟩] 1 (by norm_num)
      (by intro s hs; rw [List.mem_singleton] at hs; subst hs; norm_num)⟩

theorem chanStep_inv {α : Type} (K : ℕ) (st : ChanRun α) (op : ChanOp α)
    (h : ChanInv K st) : ChanInv K (chanStep st op) := by
  obtain ⟨hcap, hlen, hcount, hfifo, hw⟩ := h
  cases op with
  | push samples =>
    have hn : min samples.length (st.chan.capacity - st.chan.queue.length) ≤
        st.chan.capacity - st.chan.queue.length := Nat.min_le_right _ _
    have hn₂ : min samples.length (st.chan.capacity - st.chan.queue.length) ≤
        samples.length := Nat.min_le_left _ _
    refine ⟨hcap, ?_, ?_, ?_, ?_⟩
    · simp only [chanStep, push_bulk, List.length_append]
      rw [List.length_take]
      omega
    · simp only [chanStep, push_bulk]
      omega
    · simp only [chanStep, push_bulk]
      rw [← List.append_assoc, hfifo]
    · simp only [chanStep, push_bulk, List.length_append]
      rw [List.length_take, hw]
      omega
  | drain max =>
    refine ⟨hcap, ?_, hcount, ?_, ?_⟩
    · simp only [chanStep, drain_up_to, List.length_drop]
      omega
    · simp only [chanStep, drain_up_to]
      rw [List.append_assoc, List.take_append_drop, hfifo]
    · simp only [chanStep, drain_up_to]
      rw [hw]

theorem foldl_chanStep_inv {α : Type} (K : ℕ) (ops : List (ChanOp α)) :
    ∀ st : ChanRun α, ChanInv K st → ChanInv K (ops.foldl chanStep st) := by
  induction ops with
  | nil => intro st h; exact h
  | cons op rest ih => intro st h; exact ih _ (chanStep_inv K st op h)

theorem runChan_inv {α : Type} (K : ℕ) (ops : List (ChanOp α)) :
    ChanInv K (runChan K ops) := by
  unfold runChan
  apply foldl_chanStep_inv
  refine ⟨rfl, ?_, rfl, rfl, rfl⟩
  simp [sample_channel]

/-- C4: for a channel of capacity `K ≥ 1`, after any operation sequence the
queued-but-undrained count never exceeds `K`; each `push_bulk` returns
exactly the number of samples it appended, `min (offered, free)`, with
`written + dropped = offered` in aggregate; and the delivered samples
followed by the still-queued samples equal the accepted samples in
submission order (FIFO). -/
theorem c4_channel_invariants {α : Type} (K : ℕ) (_hK : 1 ≤ K)
    (ops : List (ChanOp α)) :
    (runChan K ops).chan.queue.length ≤ K ∧
      (runChan K ops).written + (runChan K ops).dropped = (runChan K ops).offered ∧
      (runChan K ops).drained ++ (runChan K ops).chan.queue = (runChan K ops).accepted ∧
      (∀ ch : SampleChannel α, ∀ samples : List α,
        (push_bulk ch samples).1 = min samples.length (ch.capacity - ch.queue.length) ∧
        (push_bulk ch samples).2.queue = ch.queue ++ samples.take (push_bulk ch samples).1 ∧
        (push_bulk ch samples).1 + (samples.length - (push_bulk ch samples).1) =
          samples.length) := by
  obtain ⟨_, hlen, hcount, hfifo, _⟩ := runChan_inv K ops (α := α)
  refine ⟨hlen, hcount, hfifo, ?_⟩
  intro ch samples
  refine ⟨rfl, rfl, ?_⟩
  have := Nat.min_le_left samples.length (ch.capacity - ch.queue.length)
  simp only [push_bulk]
  omega

/-- C4 witness: capacity 2, push three samples then drain ten — the invariants
hold on this concrete run (two accepted, one dropped, FIFO delivery). -/
theorem c4_witness :
    1 ≤ 2 ∧
      ((runChan 2 [ChanOp.push [10, 20, 30], ChanOp.drain 10]).chan.queue.length ≤ 2 ∧
        (runChan 2 [ChanOp.push [10, 20, 30], ChanOp.drain 10]).written +
            (runChan 2 [ChanOp.push [10, 20, 30], ChanOp.drain 10]).dropped =
          (runChan 2 [ChanOp.push [10, 20, 30], ChanOp.drain 10]).offered ∧
        (runChan 2 [ChanOp.push [10, 20, 30], ChanOp.drain 10]).drained ++
            (runChan 2 [ChanOp.push [10, 20, 30], ChanOp.drain 10]).chan.queue =
          (runChan 2 [ChanOp.push [10, 20, 30], ChanOp.drain 10]).accepted ∧
        (∀ ch : SampleChannel ℕ, ∀ samples : List ℕ,
          (push_bulk ch samples).1 = min samples.length (ch.capacity - ch.queue.length) ∧
          (push_bulk ch samples).2.queue =
            ch.queue ++ samples.take (push_bulk ch samples).1 ∧
          (push_bulk ch samples).1 + (samples.length - (push_bulk ch samples).1) =
            samples.length)) :=
  ⟨by norm_num, c4_channel_invariants 2 (by norm_num) [ChanOp.push [10, 20, 30], ChanOp.drain 10]⟩

/-- C5: `generate(count)` returns exactly `count` samples; the `i`-th sample
has `x`/`y` equal to `clamp(0.5 + amplitude·wave(TAU·frequency·t + phase)
+ dc_offset, 0, 1)` at `t = t_current + i·(1/sample_rate)` for the respective
channel, `intensity = 1` and `dt = 1/sample_rate`; and the post-state advances
`t_current` by exactly `count·(1/sample_rate)` while leaving the channel
configurations and sample rate unchanged, so consecutive batches are
phase-continuous. -/
theorem c5_oscilloscope_generate (src : OscilloscopeSource) (count : ℕ) :
    (osc_generate src count).1.length = count ∧
      (∀ i : Fin count,
        (osc_generate src count).1[(i : ℕ)]? =
          some ⟨min (max (0.5 + (src.x_channel.amplitude *
              eval_waveform src.x_channel.waveform
                (TAU * src.x_channel.frequency *
                    (src.t_current + (i : ℝ) * (1 / src.sample_rate)) +
                  src.x_channel.phase) + src.x_channel.dc_offset)) 0) 1,
            min (max (0.5 + (src.y_channel.amplitude *
              eval_waveform src.y_channel.waveform
                (TAU * src.y_channel.frequency *
                    (src.t_current + (i : ℝ) * (1 / src.sample_rate)) +
                  src.y_channel.phase) + src.y_channel.dc_offset)) 0) 1,
            1, 1 / src.sample_rate⟩) ∧
      (osc_generate src count).2.t_current =
        src.t_current + (count : ℝ) * (1 / src.sample_rate) ∧
      (osc_generate src count).2.x_channel = src.x_channel ∧
      (osc_generate src count).2.y_channel = src.y_channel ∧
      (osc_generate src count).2.sample_rate = src.sample_rate := by
  refine ⟨by simp only [osc_generate, List.length_map, List.length_range], ?_, rfl, rfl,
    rfl, rfl⟩
  intro i
  have hr : (List.range count)[(i : ℕ)]? = some (i : ℕ) := List.getElem?_range i.isLt
  simp only [osc_generate, List.getElem?_map, hr, Option.map_some]
  rfl

theorem takeWhile_append_all (p : Char → Bool) (l r : List Char) (hl : l.all p = true) :
    (l ++ r).takeWhile p = l ++ r.takeWhile p := by
  induction l with
  | nil => simp
  | cons c cs ih =>
    rw [List.all_cons, Bool.and_eq_true] at hl
    simp [List.takeWhile_cons, hl.1, ih hl.2]

theorem dropWhile_append_all (p : Char → Bool) (l r : List Char) (hl : l.all p = true) :
    (l ++ r).dropWhile p = r.dropWhile p := by
  induction l with
  | nil => simp
  | cons c cs ih =>
    rw [List.all_cons, Bool.and_eq_true] at hl
    simp [List.dropWhile_cons, hl.1, ih hl.2]

theorem takeWhile_head_false (p : Char → Bool) (r : List Char)
    (h : ∀ c, r.head? = some c → p c = false) : r.takeWhile p = [] := by
  cases r with
  | nil => rfl
  | cons c cs => simp [List.takeWhile_cons, h c rfl]

theorem dropWhile_head_false (p : Char → Bool) (r : List Char)
    (h : ∀ c, r.head? = some c → p c = false) : r.dropWhile p = r := by
  cases r with
  | nil => rfl
  | cons c cs => simp [List.dropWhile_cons, h c rfl]

theorem parseSign_of_digit (d : Char) (r : List Char) (hd : d.isDigit = true) :
    parseSign (d :: r) = (1, d :: r) := by
  have h1 : d ≠ '+' := by intro h; subst h; exact absurd hd (by decide)
  have h2 : d ≠ '-' := by intro h; subst h; exact absurd hd (by decide)
  unfold parseSign
  rw [if_neg (by simpa using h1), if_neg (by simpa using h2)]

/-- `parseFloatPrefix` on `digits.digits` followed by a non-number suffix. -/
theorem parseFloatPrefix_decimal (ds fs rest : List Char)
    (hds : ds.all (fun c => c.isDigit) = true) (hfs : fs.all (fun c => c.isDigit) = true)
    (hne : ds ≠ [])
    (hrest : ∀ c, rest.head? = some c → (c.isDigit = false ∧ c ≠ 'e' ∧ c ≠ 'E')) :
    parseFloatPrefix (ds ++ ('.' :: (fs ++ rest))) =
      some ((digitsVal ds : ℚ) + (digitsVal fs : ℚ) / 10 ^ fs.length, rest) := by
  obtain ⟨d, ds', rfl⟩ : ∃ d ds', ds = d :: ds' := by
    cases ds with
    | nil => exact absurd rfl hne
    | cons d ds' => exact ⟨d, ds', rfl⟩
  rw [List.all_cons, Bool.and_eq_true] at hds
  have hdot : ('.').isDigit = false := by decide
  have hexp : parseExponent rest = none := by
    unfold parseExponent
    rw [if_neg]
    intro hor
    cases rest with
    | nil => rcases hor with h | h <;> exact absurd h (by decide)
    | cons c cs =>
      obtain ⟨_, he, hE⟩ := hrest c rfl
      simp only [List.headD_cons] at hor
      rcases hor with h | h
      · exact he h
      · exact hE h
  have htake : (d :: (ds' ++ ('.' :: (fs ++ rest)))).takeWhile (fun c => c.isDigit) =
      d :: ds' := by
    rw [List.takeWhile_cons, if_pos hds.1, takeWhile_append_all _ _ _ hds.2]
    simp [List.takeWhile_cons, hdot]
  have hdrop : (d :: (ds' ++ ('.' :: (fs ++ rest)))).dropWhile (fun c => c.isDigit) =
      '.' :: (fs ++ rest) := by
    rw [List.dropWhile_cons, if_pos hds.1, dropWhile_append_all _ _ _ hds.2]
    simp [List.dropWhile_cons, hdot]
  have htakef : (fs ++ rest).takeWhile (fun c => c.isDigit) = fs := by
    rw [takeWhile_append_all _ _ _ hfs,
      takeWhile_head_false _ _ (fun c hc => (hrest c hc).1)]
    simp
  have hdropf : (fs ++ rest).dropWhile (fun c => c.isDigit) = rest :=
    (dropWhile_append_all _ _ _ hfs).trans
      (dropWhile_head_false _ _ (fun c hc => (hrest c hc).1))
  have hman : parseMantissa (d :: (ds' ++ ('.' :: (fs ++ rest)))) =
      some ((digitsVal (d :: ds') : ℚ) + (digitsVal fs : ℚ) / 10 ^ fs.length, rest) := by
    simp only [parseMantissa]
    rw [htake, hdrop]
    rw [if_pos (show ('.' :: (fs ++ rest)).headD ' ' = '.' from rfl)]
    simp only [List.tail_cons]
    rw [htakef, hdropf]
    rw [if_neg (by simp)]
  rw [List.cons_append]
  simp only [parseFloatPrefix]
  rw [parseSign_of_digit d _ hds.1]
  dsimp only
  rw [hman]
  simp [hexp]

/-- `parseFloatPrefix` on a plain digit run followed by a non-number suffix. -/
theorem parseFloatPrefix_integer (ds rest : List Char)
    (hds : ds.all (fun c => c.isDigit) = true) (hne : ds ≠ [])
    (hrest : ∀ c, rest.head? = some c →
      (c.isDigit = false ∧ c ≠ '.' ∧ c ≠ 'e' ∧ c ≠ 'E')) :
    parseFloatPrefix (ds ++ rest) = some ((digitsVal ds : ℚ), rest) := by
  obtain ⟨d, ds', rfl⟩ : ∃ d ds', ds = d :: ds' := by
    cases ds with
    | nil => exact absurd rfl hne
    | cons d ds' => exact ⟨d, ds', rfl⟩
  rw [List.all_cons, Bool.and_eq_true] at hds
  have hexp : parseExponent rest = none := by
    unfold parseExponent
    rw [if_neg]
    intro hor
    cases rest with
    | nil => rcases hor with h | h <;> exact absurd h (by decide)
    | cons c cs =>
      obtain ⟨_, _, he, hE⟩ := hrest c rfl
      simp only [List.headD_cons] at hor
      rcases hor with h | h
      · exact he h
      · exact hE h
  have htake : (d :: (ds' ++ rest)).takeWhile (fun c => c.isDigit) = d :: ds' := by
    rw [List.takeWhile_cons, if_pos hds.1, takeWhile_append_all _ _ _ hds.2,
      takeWhile_head_false _ _ (fun c hc => (hrest c hc).1)]
    simp
  have hdrop : (d :: (ds' ++ rest)).dropWhile (fun c => c.isDigit) = rest := by
    rw [List.dropWhile_cons, if_pos hds.1, dropWhile_append_all _ _ _ hds.2,
      dropWhile_head_false _ _ (fun c hc => (hrest c hc).1)]
  have hnotdot : ¬(rest.headD ' ' = '.') := by
    cases rest with
    | nil => decide
    | cons c cs =>
      simp only [List.headD_cons]
      exact (hrest c rfl).2.1
  have hman : parseMantissa (d :: (ds' ++ rest)) =
      some ((digitsVal (d :: ds') : ℚ), rest) := by
    simp only [parseMantissa]
    rw [htake, hdrop]
    rw [if_neg hnotdot]
    rw [if_neg (by simp)]
  rw [List.cons_append]
  simp only [parseFloatPrefix]
  rw [parseSign_of_digit d _ hds.1]
  dsimp only
  rw [hman]
  simp [hexp]

/-- Evaluate `sp_float` on a concrete space-prefixed decimal. -/
theorem sp_float_eval (cs body ds fs rest : List Char) (v : ℚ)
    (hsp : space1 cs = some body)
    (hbody : body = ds ++ ('.' :: (fs ++ rest)))
    (hds : ds.all (fun c => c.isDigit) = true) (hfs : fs.all (fun c => c.isDigit) = true)
    (hne : ds ≠ [])
    (hrest : ∀ c, rest.head? = some c → (c.isDigit = false ∧ c ≠ 'e' ∧ c ≠ 'E'))
    (hval : (digitsVal ds : ℚ) + (digitsVal fs : ℚ) / 10 ^ fs.length = v) :
    sp_float cs = some (v, rest) := by
  simp only [sp_float, hsp]
  rw [hbody, parseFloatPrefix_decimal _ _ _ hds hfs hne hrest, hval]

/-- Evaluate `parse_line` on a concrete well-formed `B` line. -/
theorem parse_line_beam_eval (line r r1 r2 r3 r4 : List Char) (x y intensity dt : ℚ)
    (htrim : trimChars line = 'B' :: r)
    (h1 : sp_float r = some (x, r1)) (h2 : sp_float r1 = some (y, r2))
    (h3 : sp_float r2 = some (intensity, r3)) (h4 : sp_float r3 = some (dt, r4)) :
    parse_line line = .ok (some (.beam ⟨x, y, intensity, dt⟩)) := by
  unfold parse_line
  rw [htrim]
  rw [if_neg (by simp)]
  have hms : multispace0 ('B' :: r) = 'B' :: r := by
    unfold multispace0
    rw [List.dropWhile_cons, if_neg (by decide)]
  rw [hms]
  simp only [parse_beam, h1, h2, h3, h4]

theorem sp_float_v05 :
    sp_float ((" 0.5 0.75 1.0 0.001").toList) =
      some (1 / 2, (" 0.75 1.0 0.001").toList) :=
  sp_float_eval ((" 0.5 0.75 1.0 0.001").toList) (("0.5 0.75 1.0 0.001").toList)
    ['0'] ['5'] ((" 0.75 1.0 0.001").toList) (1 / 2)
    (by decide) (by decide) (by decide) (by decide) (by decide)
    (by
      intro c hc
      rw [show (" 0.75 1.0 0.001").toList.head? = some ' ' from by decide] at hc
      cases hc
      exact ⟨by decide, by decide, by decide⟩)
    (by
      rw [show digitsVal ['0'] = 0 from by decide, show digitsVal ['5'] = 5 from by decide]
      norm_num)

theorem sp_float_v075 :
    sp_float ((" 0.75 1.0 0.001").toList) = some (3 / 4, (" 1.0 0.001").toList) :=
  sp_float_eval ((" 0.75 1.0 0.001").toList) (("0.75 1.0 0.001").toList)
    ['0'] ['7', '5'] ((" 1.0 0.001").toList) (3 / 4)
    (by decide) (by decide) (by decide) (by decide) (by decide)
    (by
      intro c hc
      rw [show (" 1.0 0.001").toList.head? = some ' ' from by decide] at hc
      cases hc
      exact ⟨by decide, by decide, by decide⟩)
    (by
      rw [show digitsVal ['0'] = 0 from by decide,
        show digitsVal ['7', '5'] = 75 from by decide]
      norm_num)

theorem sp_float_v1 :
    sp_float ((" 1.0 0.001").toList) = some (1, (" 0.001").toList) :=
  sp_float_eval ((" 1.0 0.001").toList) (("1.0 0.001").toList)
    ['1'] ['0'] ((" 0.001").toList) 1
    (by decide) (by decide) (by decide) (by decide) (by decide)
    (by
      intro c hc
      rw [show (" 0.001").toList.head? = some ' ' from by decide] at hc
      cases hc
      exact ⟨by decide, by decide, by decide⟩)
    (by
      rw [show digitsVal ['1'] = 1 from by decide, show digitsVal ['0'] = 0 from by decide]
      norm_num)

theorem sp_float_v0001 :
    sp_float ((" 0.001").toList) = some (1 / 1000, []) :=
  sp_float_eval ((" 0.001").toList) (("0.001").toList)
    ['0'] ['0', '0', '1'] [] (1 / 1000)
    (by decide) (by decide) (by decide) (by decide) (by decide)
    (by intro c hc; simp at hc)
    (by
      rw [show digitsVal ['0'] = 0 from by decide,
        show digitsVal ['0', '0', '1'] = 1 from by decide]
      norm_num)

theorem sp_float_v09a :
    sp_float ((" 0.9 0.9 1.0 0.001").toList) =
      some (9 / 10, (" 0.9 1.0 0.001").toList) :=
  sp_float_eval ((" 0.9 0.9 1.0 0.001").toList) (("0.9 0.9 1.0 0.001").toList)
    ['0'] ['9'] ((" 0.9 1.0 0.001").toList) (9 / 10)
    (by decide) (by decide) (by decide) (by decide) (by decide)
    (by
      intro c hc
      rw [show (" 0.9 1.0 0.001").toList.head? = some ' ' from by decide] at hc
      cases hc
      exact ⟨by decide, by decide, by decide⟩)
    (by
      rw [show digitsVal ['0'] = 0 from by decide, show digitsVal ['9'] = 9 from by decide]
      norm_num)

theorem sp_float_v09b :
    sp_float ((" 0.9 1.0 0.001").toList) = some (9 / 10, (" 1.0 0.001").toList) :=
  sp_float_eval ((" 0.9 1.0 0.001").toList) (("0.9 1.0 0.001").toList)
    ['0'] ['9'] ((" 1.0 0.001").toList) (9 / 10)
    (by decide) (by decide) (by decide) (by decide) (by decide)
    (by
      intro c hc
      rw [show (" 1.0 0.001").toList.head? = some ' ' from by decide] at hc
      cases hc
      exact ⟨by decide, by decide, by decide⟩)
    (by
      rw [show digitsVal ['0'] = 0 from by decide, show digitsVal ['9'] = 9 from by decide]
      norm_num)

theorem parse_line_b1 :
    parse_line (("B 0.5 0.75 1.0 0.001").toList) =
      .ok (some (.beam ⟨1 / 2, 3 / 4, 1, 1 / 1000⟩)) :=
  parse_line_beam_eval (("B 0.5 0.75 1.0 0.001").toList)
    ((" 0.5 0.75 1.0 0.001").toList) ((" 0.75 1.0 0.001").toList)
    ((" 1.0 0.001").toList) ((" 0.001").toList) []
    (1 / 2) (3 / 4) 1 (1 / 1000)
    (by decide) sp_float_v05 sp_float_v075 sp_float_v1 sp_float_v0001

theorem parse_line_fsync : parse_line (("F").toList) = .ok (some .frameSync) := by
  decide

theorem parse_line_b2 :
    parse_line (("B 0.9 0.9 1.0 0.001").toList) =
      .ok (some (.beam ⟨9 / 10, 9 / 10, 1, 1 / 1000⟩)) :=
  parse_line_beam_eval (("B 0.9 0.9 1.0 0.001").toList)
    ((" 0.9 0.9 1.0 0.001").toList) ((" 0.9 1.0 0.001").toList)
    ((" 1.0 0.001").toList) ((" 0.001").toList) []
    (9 / 10) (9 / 10) 1 (1 / 1000)
    (by decide) sp_float_v09a sp_float_v09b sp_float_v1 sp_float_v0001

/-- C6: feeding `B 0.5 0.75 1.0 0.001`, `F`, `B 0.9 0.9 1.0 0.001`, the first
`generate` call returns exactly the single sample `(0.5, 0.75, 1.0, 0.001)` —
the frame-sync line ends that batch — and the second call returns exactly
`(0.9, 0.9, 1.0, 0.001)`. -/
theorem c6_external_two_frames :
    (ext_generate ⟨1, extScenarioLines, 0⟩ (1 / 1000)).1 =
        [(⟨0.5, 0.75, 1, 0.001⟩ : BeamSample ℝ)] ∧
      (ext_generate ((ext_generate ⟨1, extScenarioLines, 0⟩ (1 / 1000)).2) (1 / 1000)).1 =
        [(⟨0.9, 0.9, 1, 0.001⟩ : BeamSample ℝ)] := by
  have hp3 : extProcess 1 (1 / 1000) [(("B 0.9 0.9 1.0 0.001").toList)] =
      ([castSample ⟨9 / 10, 9 / 10, 1, 1 / 1000⟩], 1) := by
    simp only [extProcess, parse_line_b2]
  have hp2 : extProcess 1 (1 / 1000) [("F").toList, ("B 0.9 0.9 1.0 0.001").toList] =
      ([], 1) := by
    simp only [extProcess, parse_line_fsync]
  have hp1 : extProcess 1 (1 / 1000) extScenarioLines =
      ([castSample ⟨1 / 2, 3 / 4, 1, 1 / 1000⟩], 2) := by
    simp only [extScenarioLines, extProcess, parse_line_b1, parse_line_fsync]
  constructor
  · simp only [ext_generate, List.drop_zero, hp1, castSample]
    norm_num
  · have hdropa : extScenarioLines.drop (0 + 2) = [("B 0.9 0.9 1.0 0.001").toList] := rfl
    have hdropb : extScenarioLines.drop 2 = [("B 0.9 0.9 1.0 0.001").toList] := rfl
    simp only [ext_generate, List.drop_zero, hp1, hdropa, hdropb, hp3, castSample]
    norm_num

/-- C10: `ExternalSource::generate` never fails on malformed input — a line on
which `parse_line` errors is silently skipped wherever it sits in the queue
(the emitted samples are unchanged), the following lines continue to be
processed, and the erroring line is still consumed rather than ending the
batch. -/
theorem c10_error_lines_skipped (bs spot : ℝ) (pre post : List (List Char)) (l : List Char)
    (herr : ∃ e, parse_line l = .error e) :
    (extProcess bs spot (pre ++ l :: post)).1 = (extProcess bs spot (pre ++ post)).1 ∧
      (extProcess bs spot (l :: post)).1 = (extProcess bs spot post).1 ∧
      (extProcess bs spot (l :: post)).2 = (extProcess bs spot post).2 + 1 := by
  obtain ⟨e, he⟩ := herr
  have hhead : ∀ post' : List (List Char),
      (extProcess bs spot (l :: post')).1 = (extProcess bs spot post').1 ∧
      (extProcess bs spot (l :: post')).2 = (extProcess bs spot post').2 + 1 := by
    intro post'
    simp only [extProcess, he]
    exact ⟨trivial, trivial⟩
  refine ⟨?_, (hhead post).1, (hhead post).2⟩
  induction pre with
  | nil => simpa using (hhead post).1
  | cons p ps ih =>
    simp only [List.cons_append]
    cases hpl : parse_line p with
    | error e' => simpa [extProcess, hpl] using ih
    | ok cmdo =>
      cases cmdo with
      | none => simpa [extProcess, hpl] using ih
      | some cmd =>
        cases cmd with
        | beam s => simp [extProcess, hpl, ih]
        | segment a b c d i => simp [extProcess, hpl, ih]
        | frameSync => simp [extProcess, hpl]

/-- C10 witness: `X garbage` parses to an error and is skipped between two
frame-sync lines without affecting the emitted samples, while still being
consumed. -/
theorem c10_witness :
    (∃ e, parse_line (("X garbage").toList) = Except.error e) ∧
      ((extProcess 0 0 ([("F").toList] ++ (("X garbage").toList) :: [])).1 =
          (extProcess 0 0 ([("F").toList] ++ [])).1 ∧
        (extProcess 0 0 ((("X garbage").toList) :: [])).1 = (extProcess 0 0 []).1 ∧
        (extProcess 0 0 ((("X garbage").toList) :: [])).2 = (extProcess 0 0 []).2 + 1) :=
  have herr : ∃ e, parse_line (("X garbage").toList) = Except.error e :=
    ⟨"unknown command: X garbage", by decide⟩
  ⟨herr, c10_error_lines_skipped 0 0 [("F").toList] [] (("X garbage").toList) herr⟩

theorem parseRatWhole_400 : parseRatWhole ['4', '0', '0'] = some 400 := by
  unfold parseRatWhole
  rw [show ['4', '0', '0'] = ['4', '0', '0'] ++ [] from by simp]
  rw [parseFloatPrefix_integer ['4', '0', '0'] [] (by decide) (by decide)
    (by intro c hc; simp at hc)]
  rw [show digitsVal ['4', '0', '0'] = 400 from by decide]
  norm_num

theorem parseRatWhole_401 : parseRatWhole ['4', '0', '1'] = some 401 := by
  unfold parseRatWhole
  rw [show ['4', '0', '1'] = ['4', '0', '1'] ++ [] from by simp]
  rw [parseFloatPrefix_integer ['4', '0', '1'] [] (by decide) (by decide)
    (by intro c hc; simp at hc)]
  rw [show digitsVal ['4', '0', '1'] = 401 from by decide]
  norm_num

theorem parseRatWhole_one : parseRatWhole ['1'] = some 1 := by
  unfold parseRatWhole
  rw [show ['1'] = ['1'] ++ [] from by simp]
  rw [parseFloatPrefix_integer ['1'] [] (by decide) (by decide)
    (by intro c hc; simp at hc)]
  rw [show digitsVal ['1'] = 1 from by decide]
  norm_num

theorem csv_points_eval :
    parsePoints 0 1 [(1, ("400,1").toList), (2, ("401,1").toList)] =
      .ok [((400 : ℚ), (1 : ℚ)), (401, 1)] := by
  have hf1 : csvFields (("400,1").toList) = [("400").toList, ("1").toList] := by decide
  have hf2 : csvFields (("401,1").toList) = [("401").toList, ("1").toList] := by decide
  have hs1 : isSkippableLine (("400,1").toList) = false := by decide
  have hs2 : isSkippableLine (("401,1").toList) = false := by decide
  simp only [parsePoints, hs1, hf1, hs2, hf2, Bool.false_eq_true, if_false]
  norm_num [parseRatWhole_400, parseRatWhole_401, parseRatWhole_one, max_eq_left]

set_option maxRecDepth 4000 in
theorem csvExample_ok :
    csv_to_emission_weights csvExample =
      .ok [1, 0, 0, 0, 0, 0, 0, 0, 0, 0, 0, 0, 0, 0, 0, 0] := by
  have hfind : findHeader (rustLines csvExample.toList).enum =
      some (("wavelength_nm,rel_intensity").toList,
        [(1, ("400,1").toList), (2, ("401,1").toList)]) := by decide
  have hcols : csvFields (("wavelength_nm,rel_intensity").toList) =
      [("wavelength_nm").toList, ("rel_intensity").toList] := by decide
  have hidx1 : [("wavelength_nm").toList, ("rel_intensity").toList].findIdx?
      (fun c => c = ("wavelength_nm").toList) = some 0 := by decide
  have hidx2 : [("wavelength_nm").toList, ("rel_intensity").toList].findIdx?
      (fun c => c = ("rel_intensity").toList) = some 1 := by decide
  have hsort : ([((400 : ℚ), (1 : ℚ)), (401, 1)]).insertionSort
      (fun p q => p.1 ≤ q.1) = [((400 : ℚ), (1 : ℚ)), (401, 1)] := by
    simp only [List.insertionSort, List.orderedInsert]
    rw [if_pos (by norm_num)]
  have hw : ((List.range 16).map fun band =>
      bandIntegral (band_range band).1 (band_range band).2
        [((400 : ℚ), (1 : ℚ)), (401, 1)]) =
      [1, 0, 0, 0, 0, 0, 0, 0, 0, 0, 0, 0, 0, 0, 0, 0] := by
    rw [show List.range 16 = [0, 1, 2, 3, 4, 5, 6, 7, 8, 9, 10, 11, 12, 13, 14, 15] from
      by decide]
    simp only [List.map_cons, List.map_nil]
    norm_num [bandIntegral, segmentArea, band_range, WAVELENGTH_MIN, WAVELENGTH_MAX,
      BAND_WIDTH, SPECTRAL_BANDS]
  simp only [csv_to_emission_weights, SPECTRAL_BANDS, hfind, hcols, hidx1, hidx2,
    csv_points_eval, hsort]
  rw [if_neg (by norm_num)]
  rw [hw]
  norm_num

/-- C7 witness: the gaussian bound at `peak = 525, fwhm = 38`, and the CSV
bound on `csvExample`, both via the main theorem. -/
theorem c7_witness :
    (0 : ℝ) < 38 ∧
      |(gaussian_emission_weights 525 38).sum - 1| < 1 / 100 ∧
      |([1, 0, 0, 0, 0, 0, 0, 0, 0, 0, 0, 0, 0, 0, 0, 0] : List ℚ).sum - 1| < 1 / 100 :=
  ⟨by norm_num, (c7_emission_weights_sum 525 38 (by norm_num)).1,
    (c7_emission_weights_sum 525 38 (by norm_num)).2 csvExample
      [1, 0, 0, 0, 0, 0, 0, 0, 0, 0, 0, 0, 0, 0, 0, 0] csvExample_ok⟩

/-- C8: every frame's recorded passes form a subsequence of the fixed order
beam-write, spectral resolve, decay, halation, composite (then UI overlay),
always containing the four simulation passes after beam write; with samples
present and no overlay the trace is exactly the five-pass fixed order; and
the decay pass is never recorded before the spectral-resolve pass of the same
frame — spectral resolve sits at a strictly smaller index. -/
theorem c8_render_pass_order (samples_nonempty has_egui : Bool) :
    List.Sublist (render_pass_trace samples_nonempty has_egui)
        [GpuPass.beamWrite, GpuPass.spectralResolve, GpuPass.decay,
          GpuPass.faceplateScatter, GpuPass.composite, GpuPass.uiOverlay] ∧
      render_pass_trace true false =
        [GpuPass.beamWrite, GpuPass.spectralResolve, GpuPass.decay,
          GpuPass.faceplateScatter, GpuPass.composite] ∧
      (render_pass_trace samples_nonempty has_egui).indexOf GpuPass.spectralResolve <
        (render_pass_trace samples_nonempty has_egui).indexOf GpuPass.decay ∧
      GpuPass.spectralResolve ∈ render_pass_trace samples_nonempty has_egui ∧
      GpuPass.decay ∈ render_pass_trace samples_nonempty has_egui := by
  cases samples_nonempty <;> cases has_egui <;>
    exact ⟨by decide, by decide, by decide, by decide, by decide⟩

/-- C9: loading fails fatally — no phosphor list is returned — whenever some
entry has `dual_layer = true` but lacks the `[fluorescence]` or the
`[phosphorescence]` sub-table, or is single-layer and provides neither
`fwhm_nm` nor `spectrum_csv`. -/
theorem c9_load_fails (fs : String → Option String)
    (table : List (String × PhosphorData)) (base_path : Option String)
    (name : String) (data : PhosphorData) (hmem : (name, data) ∈ table)
    (hbad : (data.dual_layer = true ∧
        (data.fluorescence = none ∨ data.phosphorescence = none)) ∨
      (data.dual_layer = false ∧ data.fwhm_nm = none ∧ data.spectrum_csv = none)) :
    exceptIsOk (load_phosphors fs table base_path) = false := by
  have hbuild : ∃ e, build_phosphor fs name data base_path = .error e := by
    rcases hbad with ⟨hd, hopt⟩ | ⟨hd, hf, hc⟩
    · cases hfl : data.fluorescence with
      | none =>
        exact ⟨name ++ ": dual_layer = true but missing [fluorescence]",
          by simp only [build_phosphor, hd, if_true, hfl]⟩
      | some fl =>
        have hph : data.phosphorescence = none := by
          rcases hopt with h | h
          · rw [hfl] at h
            cases h
          · exact h
        exact ⟨name ++ ": dual_layer = true but missing [phosphorescence]",
          by simp only [build_phosphor, hd, if_true, hfl, hph]⟩
    · exact ⟨name ++ ": need fwhm_nm or spectrum_csv for emission weights",
        by simp only [build_phosphor, hd, Bool.false_eq_true, if_false,
          resolve_emission_weights, hc, hf]⟩
  obtain ⟨e, he⟩ := hbuild
  induction table with
  | nil => simp at hmem
  | cons hd rest ih =>
    rcases List.mem_cons.mp hmem with heq | hmem'
    · rw [← heq]
      simp only [load_phosphors]
      rw [he]
      rfl
    · simp only [load_phosphors]
      cases hb : build_phosphor fs hd.1 hd.2 base_path with
      | error e' => rfl
      | ok p =>
        cases hl : load_phosphors fs rest base_path with
        | error e' => rfl
        | ok ps =>
          have hih := ih hmem'
          rw [hl] at hih
          cases hih

/-- C9 witness: a one-entry table whose entry is dual-layer without
sub-tables fails to load. -/
theorem c9_witness :
    (("BAD", badPhosphorData) ∈ [(("BAD" : String), badPhosphorData)] ∧
        badPhosphorData.dual_layer = true ∧ badPhosphorData.fluorescence = none) ∧
      exceptIsOk (load_phosphors (fun _ => none) [("BAD", badPhosphorData)] none) =
        false :=
  ⟨⟨List.mem_singleton.mpr rfl, rfl, rfl⟩,
    c9_load_fails (fun _ => none) [("BAD", badPhosphorData)] none "BAD" badPhosphorData
      (List.mem_singleton.mpr rfl) (Or.inl ⟨rfl, Or.inl rfl⟩)⟩
